import Mathlib

/-!
Shallow embedding of `src/github-actions/add-update-label-weekly/add-label.js`.

The file models the pure core of the weekly label updater: the timeline
classification function `isTimelineOutdated` (lines 147-195 of the source),
its helper `isMomentRecent` (lines 257-265), and the label dispatch performed
by `main` on the returned response object (lines 48-65).  The GitHub API
plumbing (pagination, label mutation calls, comment templating) is I/O glue
and is represented only by the description of the actions `main` would take.
-/

namespace AddLabel

/-- Label constant from the source: `const statusUpdatedLabel = 'Status: Updated'`. -/
def statusUpdatedLabel : String := "Status: Updated"

/-- Label constant from the source: `const toUpdateLabel = 'To Update !'`. -/
def toUpdateLabel : String := "To Update !"

/-- Label constant from the source: `const inactiveLabel = '2 weeks inactive'`. -/
def inactiveLabel : String := "2 weeks inactive"

/-- Milliseconds per day; JavaScript `Date` values compare by their millisecond
timestamp, which we model as an integer. -/
def msPerDay : Int := 86400000

/-- Number of days for the seven day window: `const commentByDays = 7`. -/
def commentByDays : Int := 7

/-- Number of days for the fourteen day window: `const inactiveUpdatedByDays = 14`. -/
def inactiveUpdatedByDays : Int := 14

/-- The source computes `sevenDayCutoffTime` once at module load from the wall
clock; we pass `now` explicitly and subtract seven days. -/
def sevenDayCutoff (now : Int) : Int := now - commentByDays * msPerDay

/-- The source computes `fourteenDayCutoffTime` once at module load from the
wall clock; we pass `now` explicitly and subtract fourteen days. -/
def fourteenDayCutoff (now : Int) : Int := now - inactiveUpdatedByDays * msPerDay

/-- Model of a JavaScript timestamp field value as it flows through the source.
The source treats these values both as JavaScript strings (truthiness in
`eventObj.updated_at || eventObj.created_at` and in `!lastCommentTimestamp`)
and as inputs to `new Date(...)` in `isMomentRecent`.  Four cases matter:
the field is missing (`undefined`/`null`), it is the empty string (falsy, and
`new Date("")` is an Invalid Date), it is a string that parses to a definite
point in time `t`, or it is a nonempty string that does not parse (truthy,
but `new Date(s)` is an Invalid Date). -/
inductive JsStr where
  | undef : JsStr
  | empty : JsStr
  | dateStr (t : Int) : JsStr
  | malformed : JsStr
deriving DecidableEq, Repr

/-- JavaScript truthiness of a timestamp field value: `undefined`, `null` and
`""` are falsy, every nonempty string is truthy. -/
def truthy : JsStr → Bool
  | JsStr.undef => false
  | JsStr.empty => false
  | JsStr.dateStr _ => true
  | JsStr.malformed => true

/-- Result of `new Date(s)`: `some t` when the string parses to the time `t`,
`none` when the result is an Invalid Date (its numeric value is `NaN`). -/
def parseDate : JsStr → Option Int
  | JsStr.dateStr t => some t
  | _ => none

/-- Embedding of `isMomentRecent` (source lines 257-265):
`new Date(dateString) >= cutoffTime`.  An Invalid Date compares as `NaN`,
and every comparison with `NaN` is `false`, so a malformed timestamp is
reported as not recent. -/
def isMomentRecent (dateString : JsStr) (cutoffTime : Int) : Bool :=
  match parseDate dateString with
  | some t => decide (cutoffTime ≤ t)
  | none => false

/-- One event of an issue timeline, with the fields the source reads:
`event`, `actor.login`, `assignee.login` (for `assigned` events),
`updated_at`, `created_at`, and the cross reference source body.
Modelled from the spec: the helper `findLinkedIssue` lives in
`github-actions/utils/find-linked-issue.js`, which is not part of the sources
under verification; following the spec, which says the linked text may name
another issue as fixed/closed/resolved, the field `linkedIssue` holds the
issue number that `findLinkedIssue` extracts from `source.issue.body`
(`none` when the body names no issue). -/
structure TimelineEvent where
  event : String
  actorLogin : String
  assigneeLogin : String
  updated_at : JsStr
  created_at : JsStr
  linkedIssue : Option Nat
deriving DecidableEq, Repr

/-- Embedding of `eventObj.updated_at || eventObj.created_at` (source line
158): JavaScript `||` yields the left operand when it is truthy and the right
operand otherwise. -/
def eventTimestamp (ev : TimelineEvent) : JsStr :=
  if truthy ev.updated_at then ev.updated_at else ev.created_at

/-- Embedding of `isLinkedIssue` (source lines 268-270):
`findLinkedIssue(data.source.issue.body) == issueNum`.
Modelled from the spec: `findLinkedIssue` itself is not under the verified
sources, so the comparison is against the `linkedIssue` field holding its
result. -/
def isLinkedIssue (data : TimelineEvent) (issueNum : Nat) : Bool :=
  data.linkedIssue == some issueNum

/-- Embedding of `isCommentByAssignees` (source lines 271-273):
`assignees.includes(data.actor.login)`. -/
def isCommentByAssignees (data : TimelineEvent) (assignees : List String) : Bool :=
  assignees.contains data.actorLogin

/-- The loop guard at source line 151:
`eventType === 'cross-referenced' && isLinkedIssue(eventObj, issueNum) && assignees.includes(eventObj.actor.login)`. -/
def isQualCrossRef (issueNum : Nat) (assignees : List String) (ev : TimelineEvent) : Bool :=
  ev.event == "cross-referenced" && isLinkedIssue ev issueNum && assignees.contains ev.actorLogin

/-- The loop guard at source line 162:
`eventType === 'commented' && isCommentByAssignees(eventObj, assignees)`. -/
def isQualComment (assignees : List String) (ev : TimelineEvent) : Bool :=
  ev.event == "commented" && isCommentByAssignees ev assignees

/-- The loop guard at source line 170:
`eventType === 'assigned' && assignees.includes(eventObj.assignee.login)`. -/
def isQualAssigned (assignees : List String) (ev : TimelineEvent) : Bool :=
  ev.event == "assigned" && assignees.contains ev.assigneeLogin

/-- Truthiness of the mutable loop variables `lastCommentTimestamp` and
`lastAssignedTimestamp`, which start as `null` (`none`) and may be assigned a
timestamp value. -/
def truthyOpt : Option JsStr → Bool
  | none => false
  | some s => truthy s

/-- Embedding of `if (!lastCommentTimestamp) { lastCommentTimestamp = eventTimestamp }`
(and the analogous update for `lastAssignedTimestamp`): the variable is
overwritten exactly when its current value is falsy. -/
def updFirst (cur : Option JsStr) (ts : JsStr) : Option JsStr :=
  if truthyOpt cur then cur else some ts

/-- Accumulation of one of the two timestamp variables over a prefix of the
scan order: events satisfying `p` contribute their `eventTimestamp` through
`updFirst`, all other events leave the variable unchanged. -/
def accTs (p : TimelineEvent → Bool) : List TimelineEvent → Option JsStr → Option JsStr
  | [], cur => cur
  | ev :: rest, cur => accTs p rest (if p ev then updFirst cur (eventTimestamp ev) else cur)

/-- Embedding of the `for (let i = timeline.length - 1; i >= 0; i--)` loop of
`isTimelineOutdated` (source lines 147-177), applied to the list of events in
scan order (the reversed timeline).  `none` models the early
`return { result: true, labels: statusUpdatedLabel }` taken on a qualifying
cross reference; `some (lc, la)` models falling out of the loop with the
final values of `lastCommentTimestamp` and `lastAssignedTimestamp`. -/
def scanLoop (issueNum : Nat) (assignees : List String) :
    List TimelineEvent → Option JsStr → Option JsStr → Option (Option JsStr × Option JsStr)
  | [], lc, la => some (lc, la)
  | ev :: rest, lc, la =>
    if isQualCrossRef issueNum assignees ev then none
    else if isQualComment assignees ev then
      scanLoop issueNum assignees rest (updFirst lc (eventTimestamp ev)) la
    else if isQualAssigned assignees ev then
      scanLoop issueNum assignees rest lc (updFirst la (eventTimestamp ev))
    else
      scanLoop issueNum assignees rest lc la

/-- The response object of `isTimelineOutdated`:
`{result: true/false, labels: string}`. -/
structure Response where
  result : Bool
  labels : String
deriving DecidableEq, Repr

/-- Embedding of the guard pattern `lastCommentTimestamp && isMomentRecent(lastCommentTimestamp, cutoff)`:
the truthiness check on the variable, then the recency check. -/
def truthyRecent (o : Option JsStr) (cutoff : Int) : Bool :=
  truthyOpt o && (match o with
    | some s => isMomentRecent s cutoff
    | none => false)

/-- The decision chain after the loop of `isTimelineOutdated` (source lines
180-195), on the final values of `lastCommentTimestamp` and
`lastAssignedTimestamp`. -/
def respOf (lc la : Option JsStr) (cutoff7 cutoff14 : Int) : Response :=
  if truthyRecent lc cutoff7 then { result := false, labels := statusUpdatedLabel }
  else if truthyRecent la cutoff7 then { result := false, labels := "" }
  else if truthyRecent lc cutoff14 || truthyRecent la cutoff14 then
    { result := true, labels := toUpdateLabel }
  else { result := true, labels := inactiveLabel }

/-- Embedding of `isTimelineOutdated(timeline, issueNum, assignees)` (source
lines 147-195), with the two module level cutoff times passed explicitly. -/
def isTimelineOutdated (timeline : List TimelineEvent) (issueNum : Nat)
    (assignees : List String) (cutoff7 cutoff14 : Int) : Response :=
  match scanLoop issueNum assignees timeline.reverse none none with
  | none => { result := true, labels := statusUpdatedLabel }
  | some (lc, la) => respOf lc la cutoff7 cutoff14

/-- The abstract classification result of the spec data model. -/
inductive ClassificationResult where
  | Updated : ClassificationResult
  | NeedsUpdate : ClassificationResult
  | Inactive : ClassificationResult
  | RecentlyAssigned : ClassificationResult
deriving DecidableEq, Repr

/-- The label name mapping of the spec, read backwards: a response object is
classified by its label string (`Status: Updated` marks `Updated`, the empty
string marks `RecentlyAssigned`, `To Update !` marks `NeedsUpdate`,
`2 weeks inactive` marks `Inactive`). -/
def toClassification (r : Response) : ClassificationResult :=
  if r.labels == statusUpdatedLabel then ClassificationResult.Updated
  else if r.labels == "" then ClassificationResult.RecentlyAssigned
  else if r.labels == toUpdateLabel then ClassificationResult.NeedsUpdate
  else ClassificationResult.Inactive

/-- The classifier of the spec: `isTimelineOutdated` with the cutoffs derived
from `now`, followed by the label name mapping. -/
def classify (timeline : List TimelineEvent) (issueNum : Nat)
    (assignees : List String) (now : Int) : ClassificationResult :=
  toClassification
    (isTimelineOutdated timeline issueNum assignees (sevenDayCutoff now) (fourteenDayCutoff now))

/-- The label mutations and the comment that `main` performs for one issue. -/
structure IssueActions where
  removed : List String
  added : List String
  commented : Bool
deriving DecidableEq, Repr

/-- Embedding of the dispatch in `main` on the response object (source lines
48-65): the four guarded branches, in order, and the implicit fifth case in
which `main` does nothing. -/
def mainDispatch (r : Response) : IssueActions :=
  if r.result == false && r.labels == statusUpdatedLabel then
    { removed := [toUpdateLabel, inactiveLabel], added := [statusUpdatedLabel], commented := false }
  else if r.result == true && r.labels == toUpdateLabel then
    { removed := [statusUpdatedLabel, inactiveLabel], added := [toUpdateLabel], commented := true }
  else if r.result == true && r.labels == inactiveLabel then
    { removed := [toUpdateLabel, statusUpdatedLabel], added := [inactiveLabel], commented := true }
  else if r.result == false && r.labels == "" then
    { removed := [toUpdateLabel, inactiveLabel, statusUpdatedLabel], added := [], commented := false }
  else
    { removed := [], added := [], commented := false }

/-- The parsed time of the effective timestamp of an event (`0` as a dummy
when the timestamp does not parse). -/
def tsVal (ev : TimelineEvent) : Int :=
  match parseDate (eventTimestamp ev) with
  | some t => t
  | none => 0

/-- Whether the effective timestamp of an event parses to a valid date. -/
def tsValid (ev : TimelineEvent) : Bool :=
  (parseDate (eventTimestamp ev)).isSome

/-- A timeline in the order the GitHub API delivers it: every event carries a
valid timestamp and the events are listed oldest first. -/
def Chronological (l : List TimelineEvent) : Prop :=
  (∀ ev ∈ l, tsValid ev = true) ∧ l.Pairwise (fun a b => tsVal a ≤ tsVal b)

instance (l : List TimelineEvent) : Decidable (Chronological l) := by
  unfold Chronological
  infer_instance

end AddLabel

namespace AddLabel

/-! ### Helper lemmas about the scan -/

/-- An event cannot satisfy both the commented guard and the assigned guard,
because the two guards test the `event` string against different literals. -/
theorem isQualAssigned_eq_false_of_comment {assignees : List String} {ev : TimelineEvent}
    (h : isQualComment assignees ev = true) : isQualAssigned assignees ev = false := by
  simp only [isQualComment, Bool.and_eq_true, beq_iff_eq] at h
  simp only [isQualAssigned, Bool.and_eq_false_iff, beq_eq_false_iff_ne, ne_eq, h.1]
  left
  simp

/-- A valid effective timestamp parses to its `tsVal`. -/
theorem parseDate_eventTimestamp_of_valid {ev : TimelineEvent} (h : tsValid ev = true) :
    parseDate (eventTimestamp ev) = some (tsVal ev) := by
  cases hp : parseDate (eventTimestamp ev) with
  | none => unfold tsValid at h; rw [hp] at h; simp at h
  | some t => simp [tsVal, hp]

/-- A timestamp that parses is a nonempty string, hence truthy. -/
theorem truthy_of_parse {s : JsStr} {t : Int} (h : parseDate s = some t) : truthy s = true := by
  cases s <;> first | rfl | simp [parseDate] at h

/-- The guard pattern is false on a null variable. -/
theorem truthyRecent_none (c : Int) : truthyRecent none c = false := rfl

/-- On a variable holding a parsable timestamp the guard pattern reduces to the
inclusive cutoff comparison. -/
theorem truthyRecent_some_of_parse {s : JsStr} {t : Int} (h : parseDate s = some t) (c : Int) :
    truthyRecent (some s) c = decide (c ≤ t) := by
  simp [truthyRecent, truthyOpt, truthy_of_parse h, isMomentRecent, h]

/-- On a variable holding an unparsable timestamp the guard pattern is false:
the Invalid Date comparison fails. -/
theorem truthyRecent_some_of_parse_none {s : JsStr} (h : parseDate s = none) (c : Int) :
    truthyRecent (some s) c = false := by
  simp [truthyRecent, isMomentRecent, h]

/-- The loop returns early with the cross reference response whenever some
event of the scanned list satisfies the cross reference guard. -/
theorem scanLoop_eq_none_of_crossref (issueNum : Nat) (assignees : List String)
    (l : List TimelineEvent) (lc la : Option JsStr)
    (h : ∃ ev ∈ l, isQualCrossRef issueNum assignees ev = true) :
    scanLoop issueNum assignees l lc la = none := by
  induction l generalizing lc la with
  | nil => simp at h
  | cons ev rest ih =>
    rcases h with ⟨e, he, hq⟩
    rcases List.mem_cons.mp he with rfl | hmem
    · simp [scanLoop, hq]
    · by_cases hc : isQualCrossRef issueNum assignees ev
      · simp [scanLoop, hc]
      · by_cases h1 : isQualComment assignees ev <;>
          by_cases h2 : isQualAssigned assignees ev <;>
          simp [scanLoop, hc, h1, h2] <;>
          exact ih _ _ ⟨e, hmem, hq⟩

/-- When no event of the scanned list satisfies the cross reference guard, the
loop completes and the two timestamp variables accumulate independently. -/
theorem scanLoop_eq_accs (issueNum : Nat) (assignees : List String)
    (l : List TimelineEvent) (lc la : Option JsStr)
    (h : ∀ ev ∈ l, isQualCrossRef issueNum assignees ev = false) :
    scanLoop issueNum assignees l lc la =
      some (accTs (isQualComment assignees) l lc, accTs (isQualAssigned assignees) l la) := by
  induction l generalizing lc la with
  | nil => simp [scanLoop, accTs]
  | cons ev rest ih =>
    have hcr : isQualCrossRef issueNum assignees ev = false := h ev (List.mem_cons_self ev rest)
    have hrest : ∀ e ∈ rest, isQualCrossRef issueNum assignees e = false :=
      fun e he => h e (List.mem_cons_of_mem ev he)
    by_cases h1 : isQualComment assignees ev
    · have h2 := isQualAssigned_eq_false_of_comment h1
      simp [scanLoop, accTs, hcr, h1, h2, ih _ _ hrest]
    · by_cases h2 : isQualAssigned assignees ev
      · simp [scanLoop, accTs, hcr, h1, h2, ih _ _ hrest]
      · simp [scanLoop, accTs, hcr, h1, h2, ih _ _ hrest]

/-- Accumulation over an appended list is accumulation in two stages. -/
theorem accTs_append (p : TimelineEvent → Bool) (xs ys : List TimelineEvent)
    (cur : Option JsStr) :
    accTs p (xs ++ ys) cur = accTs p ys (accTs p xs cur) := by
  induction xs generalizing cur with
  | nil => simp [accTs]
  | cons ev rest ih => simp [accTs, ih]

/-- When no event of the list satisfies `p` the variable keeps its value. -/
theorem accTs_id_of_none (p : TimelineEvent → Bool) (l : List TimelineEvent)
    (cur : Option JsStr) (h : ∀ ev ∈ l, p ev = false) : accTs p l cur = cur := by
  induction l generalizing cur with
  | nil => rfl
  | cons ev rest ih =>
    simp [accTs, h ev (List.mem_cons_self ev rest)]
    exact ih _ fun e he => h e (List.mem_cons_of_mem ev he)

/-- The accumulated variable is either the initial value or the effective
timestamp of some event of the list satisfying `p`. -/
theorem accTs_range (p : TimelineEvent → Bool) (l : List TimelineEvent) (cur : Option JsStr) :
    accTs p l cur = cur ∨
      ∃ ev ∈ l, p ev = true ∧ accTs p l cur = some (eventTimestamp ev) := by
  induction l generalizing cur with
  | nil => left; rfl
  | cons ev rest ih =>
    by_cases hp : p ev
    · by_cases ht : truthyOpt cur
      · have hstep : accTs p (ev :: rest) cur = accTs p rest cur := by
          simp [accTs, hp, updFirst, ht]
        rw [hstep]
        rcases ih cur with h | ⟨e, he, hpe, hacc⟩
        · left; exact h
        · right; exact ⟨e, List.mem_cons_of_mem ev he, hpe, hacc⟩
      · have hstep : accTs p (ev :: rest) cur = accTs p rest (some (eventTimestamp ev)) := by
          simp [accTs, hp, updFirst, ht]
        rw [hstep]
        rcases ih (some (eventTimestamp ev)) with h | ⟨e, he, hpe, hacc⟩
        · right; exact ⟨ev, List.mem_cons_self ev rest, hp, h⟩
        · right; exact ⟨e, List.mem_cons_of_mem ev he, hpe, hacc⟩
    · have hstep : accTs p (ev :: rest) cur = accTs p rest cur := by
        simp [accTs, hp]
      rw [hstep]
      rcases ih cur with h | ⟨e, he, hpe, hacc⟩
      · left; exact h
      · right; exact ⟨e, List.mem_cons_of_mem ev he, hpe, hacc⟩

/-- Accumulation only looks at the events satisfying `p`. -/
theorem accTs_eq_filter (p : TimelineEvent → Bool) (l : List TimelineEvent)
    (cur : Option JsStr) : accTs p l cur = accTs p (l.filter p) cur := by
  induction l generalizing cur with
  | nil => rfl
  | cons ev rest ih =>
    by_cases hp : p ev
    · simp [accTs, hp, List.filter_cons_of_pos, ih]
    · simp [accTs, hp, List.filter_cons_of_neg, ih]

/-- The central characterisation of the reverse scan on a chronologically
ordered timeline: either no event qualifies and the variable stays null, or
the variable ends holding the effective timestamp of a qualifying event whose
parsed time bounds every qualifying event of the timeline from above. -/
theorem accTs_reverse_max (p : TimelineEvent → Bool) (l : List TimelineEvent)
    (hval : ∀ ev ∈ l, tsValid ev = true)
    (hsort : l.Pairwise (fun a b => tsVal a ≤ tsVal b)) :
    (l.filter p = [] ∧ accTs p l.reverse none = none) ∨
      (∃ q ∈ l, p q = true ∧ accTs p l.reverse none = some (eventTimestamp q) ∧
        ∀ r ∈ l, p r = true → tsVal r ≤ tsVal q) := by
  induction l with
  | nil => left; exact ⟨rfl, rfl⟩
  | cons ev rest ih =>
    have hhead : ∀ b ∈ rest, tsVal ev ≤ tsVal b := (List.pairwise_cons.mp hsort).1
    have hsr := (List.pairwise_cons.mp hsort).2
    have hvr : ∀ e ∈ rest, tsValid e = true := fun e he => hval e (List.mem_cons_of_mem ev he)
    have hrw : accTs p (ev :: rest).reverse none =
        accTs p [ev] (accTs p rest.reverse none) := by
      rw [List.reverse_cons, accTs_append]
    rcases ih hvr hsr with ⟨hfil, hacc⟩ | ⟨q, hq, hpq, hacc, hmax⟩
    · by_cases hp : p ev
      · right
        refine ⟨ev, List.mem_cons_self ev rest, hp, ?_, ?_⟩
        · rw [hrw, hacc]
          simp [accTs, hp, updFirst, truthyOpt]
        · intro r hr hpr
          rcases List.mem_cons.mp hr with rfl | hmem
          · exact le_refl _
          · exfalso
            have : r ∈ rest.filter p := List.mem_filter.mpr ⟨hmem, hpr⟩
            rw [hfil] at this
            simp at this
      · left
        constructor
        · rw [List.filter_cons_of_neg (by simpa using hp)]
          exact hfil
        · rw [hrw, hacc]
          simp [accTs, hp]
    · have hvq : tsValid q = true := hvr q hq
      have htq : truthy (eventTimestamp q) = true :=
        truthy_of_parse (parseDate_eventTimestamp_of_valid hvq)
      right
      refine ⟨q, List.mem_cons_of_mem ev hq, hpq, ?_, ?_⟩
      · rw [hrw, hacc]
        by_cases hp : p ev <;> simp [accTs, hp, updFirst, truthyOpt, htq]
      · intro r hr hpr
        rcases List.mem_cons.mp hr with rfl | hmem
        · exact hhead q hq
        · exact hmax r hmem hpr

end AddLabel

namespace AddLabel

/-- When no cross reference qualifies, the whole function is the decision
chain applied to the two accumulated variables of the reverse scan. -/
theorem isTimelineOutdated_eq_respOf (timeline : List TimelineEvent) (issueNum : Nat)
    (assignees : List String) (cutoff7 cutoff14 : Int)
    (hx : ∀ ev ∈ timeline, isQualCrossRef issueNum assignees ev = false) :
    isTimelineOutdated timeline issueNum assignees cutoff7 cutoff14 =
      respOf (accTs (isQualComment assignees) timeline.reverse none)
        (accTs (isQualAssigned assignees) timeline.reverse none) cutoff7 cutoff14 := by
  unfold isTimelineOutdated
  rw [scanLoop_eq_accs issueNum assignees timeline.reverse none none
    (fun ev he => hx ev (List.mem_reverse.mp he))]

/-- When every qualifying event of a chronological timeline lies strictly
before the cutoff, the accumulated variable fails the guard at that cutoff. -/
theorem truthyRecent_acc_lt (p : TimelineEvent → Bool) (timeline : List TimelineEvent)
    (hval : ∀ ev ∈ timeline, tsValid ev = true)
    (hsort : timeline.Pairwise (fun a b => tsVal a ≤ tsVal b)) (c : Int)
    (hlt : ∀ ev ∈ timeline, p ev = true → tsVal ev < c) :
    truthyRecent (accTs p timeline.reverse none) c = false := by
  rcases accTs_reverse_max p timeline hval hsort with ⟨_, hacc⟩ | ⟨q, hq, hpq, hacc, _⟩
  · rw [hacc]; rfl
  · rw [hacc, truthyRecent_some_of_parse (parseDate_eventTimestamp_of_valid (hval q hq))]
    simp [not_le.mpr (hlt q hq hpq)]

/-- When some qualifying event of a chronological timeline lies at or after
the cutoff, the accumulated variable passes the guard at that cutoff. -/
theorem truthyRecent_acc_ge (p : TimelineEvent → Bool) (timeline : List TimelineEvent)
    (hval : ∀ ev ∈ timeline, tsValid ev = true)
    (hsort : timeline.Pairwise (fun a b => tsVal a ≤ tsVal b)) (c : Int)
    (hge : ∃ ev ∈ timeline, p ev = true ∧ c ≤ tsVal ev) :
    truthyRecent (accTs p timeline.reverse none) c = true := by
  rcases accTs_reverse_max p timeline hval hsort with ⟨hfil, _⟩ | ⟨q, hq, hpq, hacc, hmax⟩
  · exfalso
    obtain ⟨ev, hev, hp, _⟩ := hge
    have hmem : ev ∈ timeline.filter p := List.mem_filter.mpr ⟨hev, hp⟩
    rw [hfil] at hmem
    simp at hmem
  · obtain ⟨ev, hev, hp, hc⟩ := hge
    rw [hacc, truthyRecent_some_of_parse (parseDate_eventTimestamp_of_valid (hval q hq))]
    simp [le_trans hc (hmax ev hev hp)]

/-- When every timestamp of the timeline is unparsable, the accumulated
variable fails the guard at every cutoff. -/
theorem truthyRecent_acc_of_malformed (p : TimelineEvent → Bool)
    (timeline : List TimelineEvent)
    (hbad : ∀ ev ∈ timeline, parseDate (eventTimestamp ev) = none) (c : Int) :
    truthyRecent (accTs p timeline.reverse none) c = false := by
  rcases accTs_range p timeline.reverse none with hacc | ⟨ev, hev, _, hacc⟩
  · rw [hacc]; rfl
  · rw [hacc, truthyRecent_some_of_parse_none (hbad ev (List.mem_reverse.mp hev))]

end AddLabel


namespace AddLabel

/-- Shared helper: on a chronological timeline with no qualifying cross
reference, a qualifying comment at or after the seven day cutoff makes the
first branch of the decision chain fire, so the classification is `Updated`. -/
theorem classify_updated_aux (timeline : List TimelineEvent) (issueNum : Nat)
    (assignees : List String) (now : Int)
    (hx : ∀ ev ∈ timeline, isQualCrossRef issueNum assignees ev = false)
    (hval : ∀ ev ∈ timeline, tsValid ev = true)
    (hsort : timeline.Pairwise (fun a b => tsVal a ≤ tsVal b))
    (hrecent : ∃ ev ∈ timeline, isQualComment assignees ev = true ∧
      sevenDayCutoff now ≤ tsVal ev) :
    classify timeline issueNum assignees now = ClassificationResult.Updated := by
  unfold classify
  rw [isTimelineOutdated_eq_respOf _ _ _ _ _ hx]
  unfold respOf
  rw [truthyRecent_acc_ge _ _ hval hsort _ hrecent]
  rfl

/-- Shared helper: the unbundled cross reference facts imply the loop guard. -/
theorem isQualCrossRef_of_parts {issueNum : Nat} {assignees : List String}
    {ev : TimelineEvent} (h1 : ev.event = "cross-referenced")
    (h2 : isLinkedIssue ev issueNum = true)
    (h3 : assignees.contains ev.actorLogin = true) :
    isQualCrossRef issueNum assignees ev = true := by
  unfold isQualCrossRef
  rw [h1, h2, h3]
  decide

/-- C1: for every timeline containing a cross referenced event whose linked
text names the subject issue as fixed/closed/resolved and whose actor is in
the assignee set, `classify` returns `Updated`, regardless of the timestamps
of that event and of every other event in the timeline. -/
theorem classify_updated_of_crossref (timeline : List TimelineEvent) (issueNum : Nat)
    (assignees : List String) (now : Int)
    (h : ∃ ev ∈ timeline, ev.event = "cross-referenced" ∧
      isLinkedIssue ev issueNum = true ∧ assignees.contains ev.actorLogin = true) :
    classify timeline issueNum assignees now = ClassificationResult.Updated := by
  obtain ⟨ev, hev, h1, h2, h3⟩ := h
  unfold classify isTimelineOutdated
  rw [scanLoop_eq_none_of_crossref issueNum assignees timeline.reverse none none
    ⟨ev, List.mem_reverse.mpr hev, isQualCrossRef_of_parts h1 h2 h3⟩]
  rfl

/-- Witness for C1: a timeline holding only a cross reference by the assignee
naming issue 42, with no timestamps at all, classifies as `Updated`. -/
theorem classify_updated_of_crossref_witness :
    classify [⟨"cross-referenced", "alice", "", JsStr.undef, JsStr.undef, some 42⟩]
      42 ["alice"] 0 = ClassificationResult.Updated :=
  classify_updated_of_crossref _ 42 ["alice"] 0 (by decide)

/-- C2: on the cross reference path `isTimelineOutdated` returns the pair
`{result: true, labels: Status: Updated}`, and none of the four dispatch
conditions of `main` accepts this pair, so no label is added or removed and
no comment is posted. -/
theorem crossref_response_bypasses_dispatch (timeline : List TimelineEvent)
    (issueNum : Nat) (assignees : List String) (cutoff7 cutoff14 : Int)
    (h : ∃ ev ∈ timeline, ev.event = "cross-referenced" ∧
      isLinkedIssue ev issueNum = true ∧ assignees.contains ev.actorLogin = true) :
    isTimelineOutdated timeline issueNum assignees cutoff7 cutoff14 =
      { result := true, labels := statusUpdatedLabel } ∧
    mainDispatch (isTimelineOutdated timeline issueNum assignees cutoff7 cutoff14) =
      { removed := [], added := [], commented := false } := by
  obtain ⟨ev, hev, h1, h2, h3⟩ := h
  have hr : isTimelineOutdated timeline issueNum assignees cutoff7 cutoff14 =
      { result := true, labels := statusUpdatedLabel } := by
    unfold isTimelineOutdated
    rw [scanLoop_eq_none_of_crossref issueNum assignees timeline.reverse none none
      ⟨ev, List.mem_reverse.mpr hev, isQualCrossRef_of_parts h1 h2 h3⟩]
  refine ⟨hr, ?_⟩
  rw [hr]
  decide

/-- Witness for C2: the concrete cross referenced timeline produces the pair
and the empty action set. -/
theorem crossref_response_bypasses_dispatch_witness :
    isTimelineOutdated [⟨"cross-referenced", "alice", "", JsStr.undef, JsStr.undef,
      some 9⟩] 9 ["alice"] 0 0 = { result := true, labels := statusUpdatedLabel } ∧
    mainDispatch (isTimelineOutdated [⟨"cross-referenced", "alice", "", JsStr.undef,
      JsStr.undef, some 9⟩] 9 ["alice"] 0 0) =
      { removed := [], added := [], commented := false } :=
  crossref_response_bypasses_dispatch _ 9 ["alice"] 0 0 (by decide)

/-- C5: on a chronological timeline with no qualifying cross reference, if the
most recent qualifying comment lies within seven days of now (equivalently,
some qualifying comment does), `classify` returns `Updated`. -/
theorem classify_updated_of_recent_comment (timeline : List TimelineEvent)
    (issueNum : Nat) (assignees : List String) (now : Int)
    (hx : ∀ ev ∈ timeline, isQualCrossRef issueNum assignees ev = false)
    (hchron : Chronological timeline)
    (hrecent : ∃ ev ∈ timeline, isQualComment assignees ev = true ∧
      sevenDayCutoff now ≤ tsVal ev) :
    classify timeline issueNum assignees now = ClassificationResult.Updated :=
  classify_updated_aux timeline issueNum assignees now hx hchron.1 hchron.2 hrecent

/-- Witness for C5: a single comment by the assignee two days old classifies
as `Updated` (spec scenario A). -/
theorem classify_updated_of_recent_comment_witness :
    classify [⟨"commented", "alice", "", JsStr.dateStr (18 * msPerDay), JsStr.undef,
      none⟩] 1 ["alice"] (20 * msPerDay) = ClassificationResult.Updated :=
  classify_updated_of_recent_comment _ 1 ["alice"] (20 * msPerDay)
    (by decide) (by decide) (by decide)

/-- C8: for every timeline (the empty one included) with no qualifying cross
reference, no qualifying comment and no qualifying assignment, `classify`
returns `Inactive`. -/
theorem classify_inactive_of_no_qualifying (timeline : List TimelineEvent)
    (issueNum : Nat) (assignees : List String) (now : Int)
    (hx : ∀ ev ∈ timeline, isQualCrossRef issueNum assignees ev = false)
    (hc : ∀ ev ∈ timeline, isQualComment assignees ev = false)
    (ha : ∀ ev ∈ timeline, isQualAssigned assignees ev = false) :
    classify timeline issueNum assignees now = ClassificationResult.Inactive := by
  unfold classify
  rw [isTimelineOutdated_eq_respOf _ _ _ _ _ hx,
    accTs_id_of_none _ _ _ (fun ev he => hc ev (List.mem_reverse.mp he)),
    accTs_id_of_none _ _ _ (fun ev he => ha ev (List.mem_reverse.mp he))]
  rfl

/-- Witness for C8: a timeline holding a comment by a non assignee and a label
event classifies as `Inactive`. -/
theorem classify_inactive_of_no_qualifying_witness :
    classify [⟨"commented", "bob", "", JsStr.dateStr 1, JsStr.undef, none⟩,
      ⟨"labeled", "alice", "", JsStr.dateStr 2, JsStr.undef, none⟩]
      1 ["alice"] 3 = ClassificationResult.Inactive :=
  classify_inactive_of_no_qualifying _ 1 ["alice"] 3 (by decide) (by decide) (by decide)

/-- C9: on a chronological timeline with no qualifying cross reference, when
the latest qualifying comment falls exactly on the seven day cutoff, the
comparison is inclusive and `classify` returns `Updated`. -/
theorem classify_updated_at_boundary (timeline : List TimelineEvent) (issueNum : Nat)
    (assignees : List String) (now : Int)
    (hx : ∀ ev ∈ timeline, isQualCrossRef issueNum assignees ev = false)
    (hchron : Chronological timeline)
    (hexact : ∃ ev ∈ timeline, isQualComment assignees ev = true ∧
      tsVal ev = sevenDayCutoff now)
    (hbound : ∀ ev ∈ timeline, isQualComment assignees ev = true →
      tsVal ev ≤ sevenDayCutoff now) :
    classify timeline issueNum assignees now = ClassificationResult.Updated := by
  obtain ⟨ev, hev, hpev, hts⟩ := hexact
  have hub : sevenDayCutoff now ≤ tsVal ev := le_of_eq hts.symm
  exact classify_updated_aux timeline issueNum assignees now hx hchron.1 hchron.2
    ⟨ev, hev, hpev, hub⟩

/-- Witness for C9: a comment by the assignee timestamped exactly seven days
before now classifies as `Updated`; the bound hypothesis also holds since it
is the only comment. -/
theorem classify_updated_at_boundary_witness :
    classify [⟨"commented", "alice", "", JsStr.dateStr (13 * msPerDay), JsStr.undef,
      none⟩] 1 ["alice"] (20 * msPerDay) = ClassificationResult.Updated :=
  classify_updated_at_boundary _ 1 ["alice"] (20 * msPerDay)
    (by decide) (by decide) (by decide) (by decide)

end AddLabel

namespace AddLabel

/-- C6: on a chronological timeline with no qualifying cross reference and no
qualifying comment within seven days, a qualifying assignment within seven
days yields `RecentlyAssigned` (the response `{result: false, labels: empty}`),
which `main` maps to removing all three status labels and adding none. -/
theorem classify_recently_assigned (timeline : List TimelineEvent) (issueNum : Nat)
    (assignees : List String) (now : Int)
    (hx : ∀ ev ∈ timeline, isQualCrossRef issueNum assignees ev = false)
    (hchron : Chronological timeline)
    (hc : ∀ ev ∈ timeline, isQualComment assignees ev = true →
      tsVal ev < sevenDayCutoff now)
    (ha : ∃ ev ∈ timeline, isQualAssigned assignees ev = true ∧
      sevenDayCutoff now ≤ tsVal ev) :
    classify timeline issueNum assignees now = ClassificationResult.RecentlyAssigned ∧
    mainDispatch (isTimelineOutdated timeline issueNum assignees (sevenDayCutoff now)
        (fourteenDayCutoff now)) =
      { removed := [toUpdateLabel, inactiveLabel, statusUpdatedLabel], added := [],
        commented := false } := by
  obtain ⟨hval, hsort⟩ := hchron
  have hresp : isTimelineOutdated timeline issueNum assignees (sevenDayCutoff now)
      (fourteenDayCutoff now) = { result := false, labels := "" } := by
    rw [isTimelineOutdated_eq_respOf _ _ _ _ _ hx]
    unfold respOf
    rw [truthyRecent_acc_lt _ _ hval hsort _ hc, truthyRecent_acc_ge _ _ hval hsort _ ha]
    rfl
  constructor
  · unfold classify
    rw [hresp]
    rfl
  · rw [hresp]
    decide

/-- Witness for C6: an assignment of the assignee three days old and no
comments yields `RecentlyAssigned` and the clearing action (spec scenario B). -/
theorem classify_recently_assigned_witness :
    classify [⟨"assigned", "boss", "alice", JsStr.dateStr (17 * msPerDay), JsStr.undef,
      none⟩] 1 ["alice"] (20 * msPerDay) = ClassificationResult.RecentlyAssigned ∧
    mainDispatch (isTimelineOutdated [⟨"assigned", "boss", "alice",
      JsStr.dateStr (17 * msPerDay), JsStr.undef, none⟩] 1 ["alice"]
        (sevenDayCutoff (20 * msPerDay)) (fourteenDayCutoff (20 * msPerDay))) =
      { removed := [toUpdateLabel, inactiveLabel, statusUpdatedLabel], added := [],
        commented := false } :=
  classify_recently_assigned _ 1 ["alice"] (20 * msPerDay)
    (by decide) (by decide) (by decide) (by decide)

/-- C7: on a chronological timeline with no qualifying cross reference where
neither the seven day comment rule nor the seven day assignment rule matched,
a qualifying comment or assignment within fourteen days yields `NeedsUpdate`. -/
theorem classify_needs_update (timeline : List TimelineEvent) (issueNum : Nat)
    (assignees : List String) (now : Int)
    (hx : ∀ ev ∈ timeline, isQualCrossRef issueNum assignees ev = false)
    (hchron : Chronological timeline)
    (hc7 : ∀ ev ∈ timeline, isQualComment assignees ev = true →
      tsVal ev < sevenDayCutoff now)
    (ha7 : ∀ ev ∈ timeline, isQualAssigned assignees ev = true →
      tsVal ev < sevenDayCutoff now)
    (h14 : (∃ ev ∈ timeline, isQualComment assignees ev = true ∧
        fourteenDayCutoff now ≤ tsVal ev) ∨
      (∃ ev ∈ timeline, isQualAssigned assignees ev = true ∧
        fourteenDayCutoff now ≤ tsVal ev)) :
    classify timeline issueNum assignees now = ClassificationResult.NeedsUpdate := by
  obtain ⟨hval, hsort⟩ := hchron
  unfold classify
  rw [isTimelineOutdated_eq_respOf _ _ _ _ _ hx]
  unfold respOf
  rw [truthyRecent_acc_lt _ _ hval hsort _ hc7, truthyRecent_acc_lt _ _ hval hsort _ ha7]
  rcases h14 with h | h
  · rw [truthyRecent_acc_ge _ _ hval hsort _ h]
    rfl
  · rw [truthyRecent_acc_ge _ _ hval hsort _ h]
    cases htr : truthyRecent (accTs (isQualComment assignees) timeline.reverse none)
      (fourteenDayCutoff now) <;> rfl

/-- Witness for C7: a comment by the assignee ten days old yields
`NeedsUpdate` (spec scenario C). -/
theorem classify_needs_update_witness :
    classify [⟨"commented", "alice", "", JsStr.dateStr (10 * msPerDay), JsStr.undef,
      none⟩] 1 ["alice"] (20 * msPerDay) = ClassificationResult.NeedsUpdate :=
  classify_needs_update _ 1 ["alice"] (20 * msPerDay)
    (by decide) (by decide) (by decide) (by decide) (by decide)

end AddLabel

namespace AddLabel

/-- C3 counterexample: two timelines that are permutations of each other, with
the two qualifying comments at distinct timestamps (so the equal timestamp
tie break does not apply), classify differently: with the recent comment last
in array order the result is `Updated`, with the stale comment last it is
`Inactive`.  The scan takes the last qualifying event in array order, not the
latest timestamp, so the result is not permutation invariant. -/
theorem classify_not_perm_invariant :
    List.Perm
      [(⟨"commented", "alice", "", JsStr.dateStr 0, JsStr.undef, none⟩ : TimelineEvent),
        ⟨"commented", "alice", "", JsStr.dateStr (19 * msPerDay), JsStr.undef, none⟩]
      [⟨"commented", "alice", "", JsStr.dateStr (19 * msPerDay), JsStr.undef, none⟩,
        ⟨"commented", "alice", "", JsStr.dateStr 0, JsStr.undef, none⟩] ∧
    tsVal (⟨"commented", "alice", "", JsStr.dateStr 0, JsStr.undef, none⟩ : TimelineEvent) ≠
      tsVal ⟨"commented", "alice", "", JsStr.dateStr (19 * msPerDay), JsStr.undef, none⟩ ∧
    classify [⟨"commented", "alice", "", JsStr.dateStr 0, JsStr.undef, none⟩,
        ⟨"commented", "alice", "", JsStr.dateStr (19 * msPerDay), JsStr.undef, none⟩]
      1 ["alice"] (20 * msPerDay) = ClassificationResult.Updated ∧
    classify [⟨"commented", "alice", "", JsStr.dateStr (19 * msPerDay), JsStr.undef, none⟩,
        ⟨"commented", "alice", "", JsStr.dateStr 0, JsStr.undef, none⟩]
      1 ["alice"] (20 * msPerDay) = ClassificationResult.Inactive :=
  ⟨List.Perm.swap _ _ _, by decide, by decide, by decide⟩

/-- C3 amended: `classify` is invariant under every input reordering that
preserves the subsequence of qualifying commented events, the subsequence of
qualifying assigned events, and the existence of a qualifying cross
reference; a permutation that reorders same kind qualifying events with
distinct timestamps can change the result. -/
theorem classify_eq_of_same_qualifying (t1 t2 : List TimelineEvent) (issueNum : Nat)
    (assignees : List String) (now : Int)
    (hcf : t1.filter (isQualComment assignees) = t2.filter (isQualComment assignees))
    (haf : t1.filter (isQualAssigned assignees) = t2.filter (isQualAssigned assignees))
    (hxf : (∃ ev ∈ t1, isQualCrossRef issueNum assignees ev = true) ↔
      (∃ ev ∈ t2, isQualCrossRef issueNum assignees ev = true)) :
    classify t1 issueNum assignees now = classify t2 issueNum assignees now := by
  by_cases hex : ∃ ev ∈ t1, isQualCrossRef issueNum assignees ev = true
  · obtain ⟨e1, he1, hq1⟩ := hex
    obtain ⟨e2, he2, hq2⟩ := hxf.mp ⟨e1, he1, hq1⟩
    unfold classify isTimelineOutdated
    rw [scanLoop_eq_none_of_crossref issueNum assignees t1.reverse none none
        ⟨e1, List.mem_reverse.mpr he1, hq1⟩,
      scanLoop_eq_none_of_crossref issueNum assignees t2.reverse none none
        ⟨e2, List.mem_reverse.mpr he2, hq2⟩]
  · have hex2 : ¬∃ ev ∈ t2, isQualCrossRef issueNum assignees ev = true :=
      fun hh => hex (hxf.mpr hh)
    have hx1 : ∀ ev ∈ t1, isQualCrossRef issueNum assignees ev = false := by
      intro ev he
      rcases Bool.eq_false_or_eq_true (isQualCrossRef issueNum assignees ev) with h | h
      · exact absurd ⟨ev, he, h⟩ hex
      · exact h
    have hx2 : ∀ ev ∈ t2, isQualCrossRef issueNum assignees ev = false := by
      intro ev he
      rcases Bool.eq_false_or_eq_true (isQualCrossRef issueNum assignees ev) with h | h
      · exact absurd ⟨ev, he, h⟩ hex2
      · exact h
    have ec : accTs (isQualComment assignees) t1.reverse none =
        accTs (isQualComment assignees) t2.reverse none := by
      rw [accTs_eq_filter, List.filter_reverse, hcf, ← List.filter_reverse,
        ← accTs_eq_filter]
    have ea : accTs (isQualAssigned assignees) t1.reverse none =
        accTs (isQualAssigned assignees) t2.reverse none := by
      rw [accTs_eq_filter, List.filter_reverse, haf, ← List.filter_reverse,
        ← accTs_eq_filter]
    unfold classify
    rw [isTimelineOutdated_eq_respOf _ _ _ _ _ hx1,
      isTimelineOutdated_eq_respOf _ _ _ _ _ hx2, ec, ea]

/-- Witness for the amended C3: moving a non qualifying event across a
qualifying comment leaves the classification unchanged. -/
theorem classify_eq_of_same_qualifying_witness :
    classify [⟨"labeled", "bob", "", JsStr.dateStr 1, JsStr.undef, none⟩,
        ⟨"commented", "alice", "", JsStr.dateStr (18 * msPerDay), JsStr.undef, none⟩]
      1 ["alice"] (20 * msPerDay) =
    classify [⟨"commented", "alice", "", JsStr.dateStr (18 * msPerDay), JsStr.undef, none⟩,
        ⟨"labeled", "bob", "", JsStr.dateStr 1, JsStr.undef, none⟩]
      1 ["alice"] (20 * msPerDay) :=
  classify_eq_of_same_qualifying _ _ 1 ["alice"] (20 * msPerDay)
    (by decide) (by decide) (by decide)

/-- C4 counterexample: on a qualifying comment whose only timestamp is an
unparsable string, `classify` silently produces an ordinary classification
(`Inactive`) instead of surfacing any error; the embedded `isMomentRecent`
returns false on the Invalid Date and no error path exists in the code. -/
theorem classify_result_on_malformed :
    classify [⟨"commented", "alice", "", JsStr.malformed, JsStr.undef, none⟩]
      7 ["alice"] 0 = ClassificationResult.Inactive := by
  decide

/-- C4 amended: malformed timestamps are swallowed, not surfaced: whenever no
cross reference qualifies and every effective timestamp is unparsable, every
recency guard is false (an Invalid Date compares false against every cutoff)
and `classify` silently returns `Inactive`. -/
theorem classify_swallows_malformed (timeline : List TimelineEvent) (issueNum : Nat)
    (assignees : List String) (now : Int)
    (hx : ∀ ev ∈ timeline, isQualCrossRef issueNum assignees ev = false)
    (hbad : ∀ ev ∈ timeline, parseDate (eventTimestamp ev) = none) :
    classify timeline issueNum assignees now = ClassificationResult.Inactive := by
  unfold classify
  rw [isTimelineOutdated_eq_respOf _ _ _ _ _ hx]
  unfold respOf
  rw [truthyRecent_acc_of_malformed _ _ hbad, truthyRecent_acc_of_malformed _ _ hbad,
    truthyRecent_acc_of_malformed _ _ hbad, truthyRecent_acc_of_malformed _ _ hbad]
  rfl

/-- Witness for the amended C4: a comment and an assignment, both with
unparsable timestamps, classify as `Inactive` with no error. -/
theorem classify_swallows_malformed_witness :
    classify [⟨"commented", "alice", "", JsStr.malformed, JsStr.undef, none⟩,
      ⟨"assigned", "boss", "alice", JsStr.empty, JsStr.malformed, none⟩]
      3 ["alice"] (20 * msPerDay) = ClassificationResult.Inactive :=
  classify_swallows_malformed _ 3 ["alice"] (20 * msPerDay) (by decide) (by decide)

/-- C10 counterexample: an event whose `updated_at` field is present but the
empty string falls back to `created_at`, although `updated_at` is not absent:
the fallback in the code is on falsiness, not on absence. -/
theorem eventTimestamp_empty_updated_at :
    (⟨"commented", "alice", "", JsStr.empty, JsStr.dateStr 5, none⟩ :
      TimelineEvent).updated_at ≠ JsStr.undef ∧
    eventTimestamp ⟨"commented", "alice", "", JsStr.empty, JsStr.dateStr 5, none⟩ =
      JsStr.dateStr 5 ∧
    eventTimestamp ⟨"commented", "alice", "", JsStr.empty, JsStr.dateStr 5, none⟩ ≠
      (⟨"commented", "alice", "", JsStr.empty, JsStr.dateStr 5, none⟩ :
        TimelineEvent).updated_at := by
  decide

/-- C10 amended: the classifier takes the timestamp of an event to be its
`updated_at` field when that field is truthy (present and nonempty), falling
back to `created_at` when `updated_at` is absent or empty; consequently a
comment created before the seven day cutoff but edited at or after it
classifies the issue as `Updated`. -/
theorem eventTimestamp_prefers_truthy_updated_at (ev : TimelineEvent) (issueNum : Nat)
    (now tCreated tEdited : Int)
    (hold : tCreated < sevenDayCutoff now) (hnew : sevenDayCutoff now ≤ tEdited) :
    (truthy ev.updated_at = true → eventTimestamp ev = ev.updated_at) ∧
    (truthy ev.updated_at = false → eventTimestamp ev = ev.created_at) ∧
    classify [⟨"commented", "alice", "", JsStr.dateStr tEdited, JsStr.dateStr tCreated,
      none⟩] issueNum ["alice"] now = ClassificationResult.Updated := by
  refine ⟨fun h => by simp [eventTimestamp, h], fun h => by simp [eventTimestamp, h], ?_⟩
  apply classify_updated_aux
  · intro e he
    rcases List.mem_singleton.mp he with rfl
    rfl
  · intro e he
    rcases List.mem_singleton.mp he with rfl
    rfl
  · simp
  · refine ⟨_, List.mem_singleton_self _, rfl, ?_⟩
    exact hnew

/-- Witness for the amended C10: at a concrete event with an empty
`updated_at` the fallback clause applies, and a comment created twenty days
ago but edited one day ago classifies as `Updated`. -/
theorem eventTimestamp_prefers_truthy_updated_at_witness :
    (truthy (⟨"commented", "x", "", JsStr.empty, JsStr.dateStr 5, none⟩ :
        TimelineEvent).updated_at = true →
      eventTimestamp ⟨"commented", "x", "", JsStr.empty, JsStr.dateStr 5, none⟩ =
        (⟨"commented", "x", "", JsStr.empty, JsStr.dateStr 5, none⟩ :
          TimelineEvent).updated_at) ∧
    (truthy (⟨"commented", "x", "", JsStr.empty, JsStr.dateStr 5, none⟩ :
        TimelineEvent).updated_at = false →
      eventTimestamp ⟨"commented", "x", "", JsStr.empty, JsStr.dateStr 5, none⟩ =
        (⟨"commented", "x", "", JsStr.empty, JsStr.dateStr 5, none⟩ :
          TimelineEvent).created_at) ∧
    classify [⟨"commented", "alice", "", JsStr.dateStr (19 * msPerDay), JsStr.dateStr 0,
      none⟩] 1 ["alice"] (20 * msPerDay) = ClassificationResult.Updated :=
  eventTimestamp_prefers_truthy_updated_at
    ⟨"commented", "x", "", JsStr.empty, JsStr.dateStr 5, none⟩ 1 (20 * msPerDay) 0
    (19 * msPerDay) (by decide) (by decide)

end AddLabel
